import Mathlib

/-!
# Verification of `gnome-clipboard-save.py`

A shallow embedding of the clipboard-saver utility, faithful to the Python
source.  Strings are modelled as Lean `String`s (manipulated through their
character lists), machine integers as `Nat`/`Int`, the filesystem of the save
directory as a `List String` of existing file names, and fallible operations
as `Except`/`Option` values.  Python exceptions that the source catches are
turned into explicit alternatives; exceptions the source does not catch are
surfaced as `Except.error`.

Modelling notes on the Python builtins used by the source:
* `str.isalnum` is modelled ASCII-only (`Char.isAlphanum`); the claims under
  study never distinguish ASCII from wider Unicode alphanumerics.
* `str.strip()` strips the ASCII whitespace characters.
* `str.format` is modelled for the constructs reachable in this program:
  literal text, `\x7b\x7b`/`\x7d\x7d` escapes, named replacement fields with
  an optional format spec, positional/auto-numbered fields (which raise
  `IndexError`, since the program passes no positional arguments), unknown
  names (`KeyError`), and string precision specs `.N` (other specs are
  treated as `ValueError`).  Attribute/index access, `!` conversions and
  nested format specs are not modelled; every theorem below stays inside the
  modelled fragment.
-/

namespace ClipboardSaver

/-- Python exceptions relevant to `str.format` and `dict.update`. -/
inductive PyErr where
  | keyError (k : String)
  | indexError
  | valueError
  | typeError
  deriving DecidableEq, Repr

/-- The character predicate of `sanitize_filename`:
`c.isalnum() or c in (' ', '-', '_', '.')` (ASCII model of `isalnum`). -/
def allowedChar (c : Char) : Bool :=
  c.isAlphanum || c = ' ' || c = '-' || c = '_' || c = '.'

/-- ASCII whitespace, the characters removed by Python `str.strip()`. -/
def isPySpace (c : Char) : Bool :=
  c = ' ' || c = '\t' || c = '\n' || c = '\x0d' || c = '\x0b' || c = '\x0c'

/-- Python `str.strip()` on a character list: drop whitespace at both ends. -/
def pyStripL (l : List Char) : List Char :=
  ((l.dropWhile isPySpace).reverse.dropWhile isPySpace).reverse

/-- Python `str.strip()`. -/
def pyStrip (s : String) : String :=
  String.mk (pyStripL s.toList)

/-- Model of `ClipboardSaver.sanitize_filename`: map each character to itself when
allowed, to `_` otherwise, truncate to `max_len` characters, strip. -/
def sanitize_filename (maxLen : Nat) (text : String) : String :=
  String.mk (pyStripL
    ((text.toList.map (fun c => if allowedChar c then c else '_')).take maxLen))

/-- The ASCII digit character for `d` (meaningful when `d < 10`). -/
def digitChar (d : Nat) : Char := Char.ofNat (48 + d)

/-- Decimal digits of `n`, most significant first, with explicit fuel so the
definition is structurally recursive (and hence kernel-evaluable). -/
def natDigitsAux : Nat → Nat → List Char
  | 0, _ => []
  | fuel + 1, n =>
    if n < 10 then [digitChar n]
    else natDigitsAux fuel (n / 10) ++ [digitChar (n % 10)]

/-- Decimal digits of `n`, most significant first (Python `str(int)` for
non-negative values).  `n + 1` units of fuel always suffice. -/
def natDigits (n : Nat) : List Char := natDigitsAux (n + 1) n

/-- Python `str(n)` for a natural number. -/
def natStr (n : Nat) : String := String.mk (natDigits n)

/-- Python `f"{n:02d}"` (also the zero-padded fields of `strftime`):
the decimal rendering left-padded with `0` to at least two characters. -/
def pad2 (n : Nat) : String :=
  if n < 10 then String.mk ('0' :: natDigits n) else natStr n

/-- Zero-padding to four characters, for `strftime`'s `%Y`. -/
def pad4 (n : Nat) : String :=
  if n < 10 then String.mk ('0' :: '0' :: '0' :: natDigits n)
  else if n < 100 then String.mk ('0' :: '0' :: natDigits n)
  else if n < 1000 then String.mk ('0' :: natDigits n)
  else natStr n

/-- The value a `datetime.now()` call returns, reduced to the pieces the
program reads: the broken-down civil fields used by `strftime` and the
integer Unix timestamp produced by `int(….timestamp())`. -/
structure Instant where
  year : Nat
  month : Nat
  day : Nat
  hour : Nat
  minute : Nat
  second : Nat
  epoch : Int
  deriving DecidableEq, Repr

/-- Rendering of `strftime("%Y-%m-%d")`. -/
def fmtDate (t : Instant) : String :=
  pad4 t.year ++ "-" ++ pad2 t.month ++ "-" ++ pad2 t.day

/-- Rendering of `strftime("%H-%M-%S")`. -/
def fmtTime (t : Instant) : String :=
  pad2 t.hour ++ "-" ++ pad2 t.minute ++ "-" ++ pad2 t.second

/-- Rendering of `strftime("%Y%m%d_%H%M%S")`. -/
def fmtDateTime (t : Instant) : String :=
  pad4 t.year ++ pad2 t.month ++ pad2 t.day ++ "_" ++
    pad2 t.hour ++ pad2 t.minute ++ pad2 t.second

/-- Rendering of `str(int(t.timestamp()))`. -/
def fmtTimestamp (t : Instant) : String :=
  if t.epoch < 0 then "-" ++ natStr (-t.epoch).toNat else natStr t.epoch.toNat

instance {ε α : Type} [DecidableEq ε] [DecidableEq α] :
    DecidableEq (Except ε α) := fun
  | .ok a, .ok b =>
    if h : a = b then .isTrue (by rw [h]) else .isFalse (by simp [h])
  | .error e, .error f =>
    if h : e = f then .isTrue (by rw [h]) else .isFalse (by simp [h])
  | .ok _, .error _ => .isFalse (by simp)
  | .error _, .ok _ => .isFalse (by simp)

/-! ## Python `str.format` (the fragment this program can reach) -/

/-- A parsed piece of a format string: a literal character, or a replacement
field with its name and format spec. -/
inductive FItem where
  | lit (c : Char)
  | field (name spec : String)
  deriving DecidableEq, Repr

/-- Parser state: inside literal text, inside a field name, or inside a
format spec. -/
inductive PMode where
  | lit
  | name (acc : List Char)
  | spec (nm : String) (acc : List Char)

/-- Parse a format string, mirroring CPython's scanner: `\x7b\x7b` and
`\x7d\x7d` are escapes, a single `\x7d` is a `ValueError`, an unterminated
field is a `ValueError`, a `\x7b` inside a field name or spec is a
`ValueError` (nested format specs are outside the modelled fragment). -/
def pfmt : PMode → List Char → Except PyErr (List FItem)
  | .lit, [] => .ok []
  | .lit, '{' :: '{' :: rest => (FItem.lit '{' :: ·) <$> pfmt .lit rest
  | .lit, '}' :: '}' :: rest => (FItem.lit '}' :: ·) <$> pfmt .lit rest
  | .lit, '{' :: rest => pfmt (.name []) rest
  | .lit, '}' :: _ => .error .valueError
  | .lit, c :: rest => (FItem.lit c :: ·) <$> pfmt .lit rest
  | .name _, [] => .error .valueError
  | .name acc, '}' :: rest =>
    (FItem.field (String.mk acc.reverse) "" :: ·) <$> pfmt .lit rest
  | .name acc, ':' :: rest => pfmt (.spec (String.mk acc.reverse) []) rest
  | .name _, '{' :: _ => .error .valueError
  | .name acc, c :: rest => pfmt (.name (c :: acc)) rest
  | .spec _ _, [] => .error .valueError
  | .spec nm acc, '}' :: rest =>
    (FItem.field nm (String.mk acc.reverse) :: ·) <$> pfmt .lit rest
  | .spec _ _, '{' :: _ => .error .valueError
  | .spec nm acc, c :: rest => pfmt (.spec nm (c :: acc)) rest

/-- Parse a whole format string. -/
def parseFmt (s : String) : Except PyErr (List FItem) := pfmt .lit s.toList

/-- The natural number denoted by a list of decimal digit characters, most
significant first (the inverse of `natDigits`). -/
def digitsToNat (ds : List Char) : Nat :=
  ds.foldl (fun a c => 10 * a + (c.toNat - 48)) 0

/-- Apply a format spec to a string value: the empty spec is the identity,
`.N` is string precision (truncation to `N` characters), anything else is a
`ValueError` in the modelled fragment. -/
def applySpec (spec : String) (v : String) : Except PyErr String :=
  match spec.toList with
  | [] => .ok v
  | '.' :: ds =>
    if ds ≠ [] ∧ ds.all Char.isDigit then .ok (String.mk (v.toList.take (digitsToNat ds)))
    else .error .valueError
  | _ => .error .valueError

/-- Substitute parsed fields using keyword arguments `vars`, as
`template.format(**vars)` does: an empty or all-digit field name is a
positional reference (an `IndexError`, since no positional arguments are
passed), an unknown name is a `KeyError`. -/
def formatItems (vars : List (String × String)) : List FItem → Except PyErr String
  | [] => .ok ""
  | .lit c :: rest => (String.mk [c] ++ ·) <$> formatItems vars rest
  | .field name spec :: rest =>
    if name = "" ∨ (name.toList ≠ [] ∧ name.toList.all Char.isDigit) then
      .error .indexError
    else
      match (vars.lookup name : Option String) with
      | none => .error (.keyError name)
      | some v =>
        match applySpec spec v with
        | .error e => .error e
        | .ok v' => (v' ++ ·) <$> formatItems vars rest

/-- Python `template.format(**vars)`. -/
def pyFormat (template : String) (vars : List (String × String)) :
    Except PyErr String :=
  match parseFmt template with
  | .error e => .error e
  | .ok items => formatItems vars items

/-! ## `ClipboardSaver.create_filename`

The source calls `datetime.now()` four separate times while building the
template variable dict, so the model takes the clock as a function from the
index of the `now()` call (0: `date`, 1: `time`, 2: `datetime`,
3: `timestamp`) to the `Instant` that call returns. -/

/-- The value `create_filename` substitutes for `text` and `text_full`:
`sanitized_text or "empty"` (the empty string is falsy). -/
def sanitizedTextVar (maxLen : Nat) (text : String) : String :=
  let s := sanitize_filename maxLen text
  if s = "" then "empty" else s

/-- The template variable dict built by `create_filename`, in source order. -/
def templateVars (clock : Nat → Instant) (maxLen : Nat) (text : String) :
    List (String × String) :=
  [("date", fmtDate (clock 0)),
   ("time", fmtTime (clock 1)),
   ("datetime", fmtDateTime (clock 2)),
   ("timestamp", fmtTimestamp (clock 3)),
   ("text", sanitizedTextVar maxLen text),
   ("text_full", sanitizedTextVar maxLen text)]

/-- Model of `ClipboardSaver.create_filename`: substitute the template variables into
the configured template.  Only `KeyError` is caught (falling back to
`clip_<datetime>.txt`); any other exception propagates to the caller, which
the model records as an `Except.error`. -/
def create_filename (template : String) (maxLen : Nat) (clock : Nat → Instant)
    (text : String) : Except PyErr String :=
  let vars := templateVars clock maxLen text
  match pyFormat template vars with
  | .ok s => .ok s
  | .error (.keyError _) => .ok ("clip_" ++ fmtDateTime (clock 2) ++ ".txt")
  | .error e => .error e

/-! ## Collision resolution (`save_clipboard`, lines 167–174)

The save directory is modelled as the list of file names that exist in it;
`Path.exists` is membership.  `pathlib`'s `stem`/`suffix` split a name at its
last dot, provided that dot is neither the first nor the last character. -/

/-- Split a file name into `(stem, suffix)` as `pathlib.PurePath` does:
at the last `.` when its index `i` satisfies `0 < i < len - 1`, otherwise
the suffix is empty. -/
def splitExt (l : List Char) : List Char × List Char :=
  match l.reverse.findIdx? (fun c => c = '.') with
  | none => (l, [])
  | some j =>
    let i := l.length - 1 - j
    if 0 < i ∧ i < l.length - 1 then (l.take i, l.drop i) else (l, [])

/-- Model of `pathlib.PurePath(name).stem`. -/
def pyStem (name : String) : String := String.mk (splitExt name.toList).1

/-- Model of `pathlib.PurePath(name).suffix`. -/
def pySuffix (name : String) : String := String.mk (splitExt name.toList).2

/-- The candidate name `f"{stem}_{counter:02d}{suffix}"` the collision loop
tries for a given counter value. -/
def candidate (name : String) (counter : Nat) : String :=
  pyStem name ++ "_" ++ pad2 counter ++ pySuffix name

theorem digitChar_toNat {d : Nat} (h : d < 10) : (digitChar d).toNat = 48 + d := by
  interval_cases d <;> decide

theorem digitsToNat_natDigitsAux :
    ∀ fuel n, n < fuel → digitsToNat (natDigitsAux fuel n) = n := by
  intro fuel
  induction fuel with
  | zero => intro n h; omega
  | succ fuel ih =>
    intro n h
    by_cases h10 : n < 10
    · simp only [natDigitsAux, if_pos h10]
      simp only [digitsToNat, List.foldl_cons, List.foldl_nil, digitChar_toNat h10]
      omega
    · simp only [natDigitsAux, if_neg h10]
      have hdiv : n / 10 < fuel :=
        lt_of_lt_of_le (Nat.div_lt_self (by omega) (by omega)) (by omega)
      have hmod : n % 10 < 10 := Nat.mod_lt _ (by omega)
      simp only [digitsToNat, List.foldl_append, List.foldl_cons, List.foldl_nil]
      have h1 : List.foldl (fun a c => 10 * a + (c.toNat - 48)) 0
          (natDigitsAux fuel (n / 10)) = n / 10 := ih (n / 10) hdiv
      rw [h1, digitChar_toNat hmod]
      omega

theorem digitsToNat_natDigits (n : Nat) : digitsToNat (natDigits n) = n :=
  digitsToNat_natDigitsAux (n + 1) n (Nat.lt_succ_self n)

theorem digitsToNat_pad2 (n : Nat) : digitsToNat (pad2 n).toList = n := by
  by_cases h : n < 10
  · simp only [pad2, if_pos h]
    show digitsToNat ('0' :: natDigits n) = n
    simp only [digitsToNat, List.foldl_cons]
    have : (10 * 0 + ('0'.toNat - 48)) = 0 := by decide
    rw [this]
    exact digitsToNat_natDigits n
  · simp only [pad2, if_neg h]
    exact digitsToNat_natDigits n

theorem pad2_injective : Function.Injective pad2 := by
  intro a b h
  have h1 := digitsToNat_pad2 a
  rw [h, digitsToNat_pad2 b] at h1
  exact h1.symm

theorem candidate_injective (name : String) :
    Function.Injective (candidate name) := by
  intro a b h
  apply pad2_injective
  have h' := congrArg String.data h
  simp only [candidate, String.data_append, List.append_assoc] at h'
  have h2 := List.append_cancel_left h'
  have h3 := List.append_cancel_left h2
  have h4 := List.append_cancel_right h3
  exact String.ext h4

/-- The collision loop terminates within `fs.length + 1` steps: among that
many distinct candidate names, at least one is not in the listing. -/
theorem exists_free (fs : List String) (name : String) (counter : Nat) :
    ∃ k < fs.length + 1, candidate name (counter + k) ∉ fs := by
  by_contra hall
  push_neg at hall
  have hinj : Function.Injective (fun k => candidate name (counter + k)) :=
    fun a b h => by
      have := candidate_injective name h
      omega
  have hsub : (Finset.range (fs.length + 1)).image (fun k => candidate name (counter + k))
      ⊆ fs.toFinset := by
    intro x hx
    rcases Finset.mem_image.mp hx with ⟨k, hk, rfl⟩
    exact List.mem_toFinset.mpr (hall k (Finset.mem_range.mp hk))
  have hcard := Finset.card_le_card hsub
  rw [Finset.card_image_of_injective _ hinj, Finset.card_range] at hcard
  have := fs.toFinset_card_le
  omega

/-- The body of the collision-avoidance `while` loop: try
`candidate name counter`, `candidate name (counter+1)`, … until one is not
in the listing.  The loop is given explicit fuel so the definition is
structurally recursive; `fs.length + 1` units are always enough
(`exists_free`), so the fuel-exhausted branch is unreachable. -/
def resolveAux (fs : List String) (name : String) : Nat → Nat → String
  | 0, counter => candidate name counter
  | fuel + 1, counter =>
    if candidate name counter ∈ fs then resolveAux fs name fuel (counter + 1)
    else candidate name counter

/-- The collision-avoidance loop of `save_clipboard` (lines 167–174): return
the name unchanged when no file of that name exists, otherwise the first
candidate `<stem>_<counter:02d><suffix>` (counter = 1, 2, …) that does not
exist. -/
def resolveName (fs : List String) (name : String) : String :=
  if name ∈ fs then resolveAux fs name (fs.length + 1) 1
  else name

/-! ## `ClipboardSaver.load_config`

A JSON value as `json.load` yields it.  Numbers are modelled as integers
(every number in the configuration schema is one).  The running
configuration is a Python `dict`, modelled as an association list in
insertion order whose keys are JSON values (a `dict.update` with a sequence
argument can insert non-string keys). -/

inductive JVal where
  | null
  | bool (b : Bool)
  | num (n : Int)
  | str (s : String)
  | arr (items : List JVal)
  | obj (fields : List (String × JVal))

/-- A hashable JSON value, i.e. one a Python `dict` accepts as a key
(arrays and objects are unhashable). -/
inductive JKey where
  | null
  | bool (b : Bool)
  | num (n : Int)
  | str (s : String)
  deriving DecidableEq, Repr

/-- The key a JSON value yields when used as a `dict` key: `none` exactly
when the value is unhashable (`TypeError`). -/
def toKey : JVal → Option JKey
  | .null => some .null
  | .bool b => some (.bool b)
  | .num n => some (.num n)
  | .str s => some (.str s)
  | .arr _ => none
  | .obj _ => none

/-- A Python `dict`, in insertion order. -/
abbrev PyDict := List (JKey × JVal)

/-- Assignment `d[k] = v` on a Python dict: replace in place when the key is present
(keys are unique, so replacing the first occurrence suffices), append
otherwise. -/
def setKey : PyDict → JKey → JVal → PyDict
  | [], k, v => [(k, v)]
  | p :: rest, k, v =>
    if p.1 == k then (k, v) :: rest else p :: setKey rest k v

/-- Python-dict lookup. -/
def getKey (d : PyDict) (k : JKey) : Option JVal :=
  (d.find? (fun p => p.1 == k)).map (·.2)

/-- One element of a sequence argument to `dict.update`: the element must be
an iterable of length two, whose first component becomes the key.  A
two-element array gives its two components (`TypeError` when the key is
unhashable); a two-character string gives its two characters; a two-key
object gives its two keys; everything else raises (`TypeError` for
non-iterables, `ValueError` for wrong lengths). -/
def updElem (d : PyDict) (x : JVal) : Except PyErr PyDict :=
  match x with
  | .arr [k, v] =>
    match toKey k with
    | some kk => .ok (setKey d kk v)
    | none => .error .typeError
  | .arr _ => .error .valueError
  | .str s =>
    match s.toList with
    | [a, b] => .ok (setKey d (.str (String.mk [a])) (.str (String.mk [b])))
    | _ => .error .valueError
  | .obj [(k1, _), (k2, _)] => .ok (setKey d (.str k1) (.str k2))
  | .obj _ => .error .valueError
  | _ => .error .typeError

/-- Fold `dict.update` over a sequence argument.  On an exception, the
elements already processed stay applied: `dict.update` mutates in place, so
`load_config`'s `except` clause observes the partially updated dict. -/
def updSeq (d : PyDict) : List JVal → PyDict
  | [] => d
  | x :: xs =>
    match updElem d x with
    | .ok d' => updSeq d' xs
    | .error _ => d

/-- Model of `default_config.update(user_config)` for an arbitrary decoded JSON value
`user_config`, as observed after `load_config`'s `try`/`except`: a JSON
object updates per key (string keys), an array is treated as a sequence of
key-value items (stopping at the first bad element, keeping earlier ones), a
string iterates over single characters (each a length-1 sequence element, so
nothing is applied), and any other value raises `TypeError` immediately
(nothing is applied). -/
def updateObj (d : PyDict) (kvs : List (String × JVal)) : PyDict :=
  kvs.foldl (fun acc kv => setKey acc (.str kv.1) kv.2) d

def updateArg (d : PyDict) : JVal → PyDict
  | .obj kvs => updateObj d kvs
  | .arr items => updSeq d items
  | _ => d

/-- The hard-coded `default_config` dict of `load_config`. -/
def defaultConfig : PyDict :=
  [(.str "save_dir", .str "~/Documents/clipboard_saves"),
   (.str "file_template", .str "clip_\x7bdate\x7d_\x7btime\x7d_\x7btext:.15\x7d.txt"),
   (.str "max_filename_length", .num 50),
   (.str "notifications", .bool true),
   (.str "log_level", .str "INFO"),
   (.str "hotkeys", .obj [("quick_save", .str "Ctrl+Alt+S"),
                          ("custom_save", .str "Ctrl+Alt+F")])]

/-- The result of reading and JSON-decoding the config file: `none` when the
file does not exist, `some (.error _)` when reading or parsing raised, and
`some (.ok v)` when it decoded to the JSON value `v`. -/
abbrev ConfigFile := Option (Except Unit JVal)

/-- Model of `ClipboardSaver.load_config`: start from the defaults; when the config
file exists, overlay the decoded value via `dict.update`, swallowing any
exception (after which the dict holds whatever was applied before the
failure). -/
def load_config (file : ConfigFile) : PyDict :=
  match file with
  | none => defaultConfig
  | some (.error _) => defaultConfig
  | some (.ok v) => updateArg defaultConfig v

/-- Whether a sequence element makes `dict.update` raise (this depends only
on the element, never on the dict being updated). -/
def updElemFails (x : JVal) : Bool :=
  match x with
  | .arr [k, _] => (toKey k).isNone
  | .arr _ => true
  | .str s => decide (s.toList.length ≠ 2)
  | .obj kvs => decide (kvs.length ≠ 2)
  | _ => true

/-- Whether `load_config` printed the `"Error loading config"` warning to
standard error: exactly when the file existed and reading, decoding, or the
overlay raised.  An object overlay never raises; a sequence raises iff some
element is bad; a string iterates over its characters, each a length-1
element, so it raises unless it is empty; other values are not iterable
(`TypeError`). -/
def configWarning (file : ConfigFile) : Bool :=
  match file with
  | none => false
  | some (.error _) => true
  | some (.ok v) =>
    match v with
    | .obj _ => false
    | .arr items => items.any updElemFails
    | .str s => !s.toList.isEmpty
    | _ => true

/-! ## Dialog, save action and entry point -/

/-- Python `str.lower()` (ASCII model). -/
def pyLower (s : String) : String := String.mk (s.toList.map Char.toLower)

/-- Python `str.endswith(suffix)`. -/
def pyEndsWith (s suffix : String) : Bool := suffix.toList.isSuffixOf s.toList

/-- The `.txt`-extension enforcement applied to custom file names (both in
`show_filename_dialog` and in `save_clipboard`):
`if not filename.lower().endswith('.txt'): filename += '.txt'`. -/
def ensureTxt (s : String) : String :=
  if pyEndsWith (pyLower s) ".txt" then s else s ++ ".txt"

/-- Model of `ClipboardSaver.show_filename_dialog`.  The zenity subprocess is an
external collaborator, modelled by its observed result: `none` when
launching it raised (the method catches this and returns `None`), or
`some (returncode, stdout)`.  A zero return code with non-blank stripped
output yields that output with the `.txt` extension enforced; everything
else yields `None`. -/
def show_filename_dialog (zenity : Option (Nat × String)) : Option String :=
  match zenity with
  | some (0, out) =>
    let filename := pyStrip out
    if filename ≠ "" then some (ensureTxt filename) else none
  | _ => none

/-- The outcome of `save_clipboard`: its boolean result, the resulting save
directory listing, and the file written (name and content), if any. -/
structure SaveOutcome where
  ok : Bool
  fs : List String
  written : Option (String × String)
  deriving DecidableEq, Repr

/-- Model of `ClipboardSaver.save_clipboard`.  Inputs that stand for the external
world: `fs` is the listing of the save directory, `clipboard` the result of
`pyperclip.paste()` (`.error` for a clipboard-access exception, which the
method catches and turns into `False`), `dialog` the zenity result as in
`show_filename_dialog`.  The final `open`/`write` is assumed to succeed (a
filesystem write error would be caught by the generic `except` and yield
`False`); with it, the written name is appended to the listing. -/
def save_clipboard (template : String) (maxLen : Nat) (clock : Nat → Instant)
    (fs : List String) (clipboard : Except Unit String)
    (customFilename : Option String) (useDialog : Bool)
    (dialog : Option (Nat × String)) : SaveOutcome :=
  match clipboard with
  | .error _ => ⟨false, fs, none⟩
  | .ok text =>
    if text = "" ∨ pyStrip text = "" then ⟨false, fs, none⟩
    else if useDialog then
      -- the suggested name is computed before the dialog; a template
      -- exception here propagates to the generic handler (result `False`)
      match create_filename template maxLen clock text with
      | .error _ => ⟨false, fs, none⟩
      | .ok _ =>
        match show_filename_dialog dialog with
        | none => ⟨false, fs, none⟩  -- user cancelled the dialog
        | some f =>
          -- the dialog never returns the empty string, so `if custom_filename:`
          -- is true and the `.txt` extension check runs again (a no-op here)
          let final := resolveName fs (ensureTxt f)
          ⟨true, fs ++ [final], some (final, text)⟩
    else
      let filenameE : Except PyErr String :=
        match customFilename with
        | some s =>
          -- `if custom_filename:` — the empty string is falsy in Python
          if s ≠ "" then .ok (ensureTxt s)
          else create_filename template maxLen clock text
        | none => create_filename template maxLen clock text
      match filenameE with
      | .error _ => ⟨false, fs, none⟩  -- caught by the generic `except`
      | .ok filename =>
        let final := resolveName fs filename
        ⟨true, fs ++ [final], some (final, text)⟩

/-- The command-line arguments after `argparse`. -/
structure Args where
  list : Option Nat
  info : Bool
  initConfig : Bool
  custom : Bool
  filename : Option String

/-- The process exit code produced by `main`.  `interrupted` stands for a
`KeyboardInterrupt` delivered inside the `try` block and `ctorFail` for any
exception escaping the `ClipboardSaver` constructor (both reach `main`'s
handlers and exit with 1); `--init-config` runs before the `try` and
returns, and `--list`/`--info` fall off the end of `main`, all exiting
with 0. -/
def mainExit (args : Args) (interrupted ctorFail : Bool)
    (template : String) (maxLen : Nat) (clock : Nat → Instant)
    (fs : List String) (clipboard : Except Unit String)
    (dialog : Option (Nat × String)) : Nat :=
  if args.initConfig then 0
  else if interrupted then 1
  else if ctorFail then 1
  else
    match args.list with
    | some _ => 0
    | none =>
      if args.info then 0
      else
        let r :=
          match args.filename with
          | some f =>
            -- `if args.filename:` — the empty string is falsy
            if f ≠ "" then
              save_clipboard template maxLen clock fs clipboard (some f) false dialog
            else if args.custom then
              save_clipboard template maxLen clock fs clipboard none true dialog
            else
              save_clipboard template maxLen clock fs clipboard none false dialog
          | none =>
            if args.custom then
              save_clipboard template maxLen clock fs clipboard none true dialog
            else
              save_clipboard template maxLen clock fs clipboard none false dialog
        if r.ok then 0 else 1

/-! ## Auxiliary predicates used to state the properties -/

/-- The recognized template variable names, i.e. the keys of the template
variable dict. -/
def recognizedNames : List String :=
  ["date", "time", "datetime", "timestamp", "text", "text_full"]

/-- A plain keyword field name: non-empty, made of alphanumerics and
underscores, and not all digits (an all-digit name is a positional
reference).  Every recognized name is plain. -/
def plainNameB (n : String) : Bool :=
  !n.toList.isEmpty && n.toList.all (fun c => c.isAlphanum || c = '_') &&
    !n.toList.all Char.isDigit

/-- A format spec `applySpec` accepts: empty, or `.` followed by digits. -/
def specOkB (spec : String) : Bool :=
  match spec.toList with
  | [] => true
  | '.' :: ds => !ds.isEmpty && ds.all Char.isDigit
  | _ => false

/-- A parsed format item that can only fail by `KeyError`: a literal, or a
field with a plain keyword name and an acceptable spec. -/
def goodFieldB : FItem → Bool
  | .lit _ => true
  | .field n spec => plainNameB n && specOkB spec

/-- The names of the replacement fields of a parsed template. -/
def fieldNames : List FItem → List String
  | [] => []
  | .lit _ :: rest => fieldNames rest
  | .field n _ :: rest => n :: fieldNames rest

end ClipboardSaver

namespace ClipboardSaver

/-- A fixed illustrative instant (2024-01-15 14:30:05 UTC). -/
def t₀ : Instant := ⟨2024, 1, 15, 14, 30, 5, 1705329005⟩

/-- A clock frozen at `t₀`: every `datetime.now()` call returns `t₀`. -/
def frozenClock : Nat → Instant := fun _ => t₀

/-- The instant one second after `t₀` (2024-01-15 14:30:06 UTC). -/
def t₁ : Instant := ⟨2024, 1, 15, 14, 30, 6, 1705329006⟩

/-- A clock that ticks from `t₀` to `t₁` after the first `datetime.now()`
call of `create_filename`. -/
def tickingClock : Nat → Instant := fun n => if n = 0 then t₀ else t₁

example : sanitize_filename 50 "Hello, World! 123" = "Hello_ World_ 123" := by decide
example : sanitize_filename 5 "  a  " = "a" := by decide
example : sanitize_filename 50 "   " = "" := by decide
example : pad2 7 = "07" := by decide
example : pad2 42 = "42" := by decide
example : pad2 123 = "123" := by decide
example : pad4 2024 = "2024" := by decide

example :
    create_filename "clip_\x7bdate\x7d_\x7btime\x7d_\x7btext:.15\x7d.txt" 50 frozenClock
      "Hello, World! 123" = .ok "clip_2024-01-15_14-30-05_Hello_ World_ 1.txt" := by
  decide

example :
    create_filename "clip_\x7bdate\x7d_\x7bfoo\x7d.txt" 50 frozenClock "x" =
      .ok "clip_20240115_143005.txt" := by decide

example :
    create_filename "\x7b\x7d\x7bfoo\x7d" 50 frozenClock "x" = .error .indexError := by decide

example :
    create_filename "clip_\x7bdate" 50 frozenClock "x" = .error .valueError := by decide

example : resolveName [] "a.txt" = "a.txt" := by decide
example : resolveName ["a.txt"] "a.txt" = "a_01.txt" := by decide
example : resolveName ["a.txt", "a_01.txt"] "a.txt" = "a_02.txt" := by decide
example : pyStem "archive.tar.gz" = "archive.tar" := by decide
example : pySuffix "archive.tar.gz" = ".gz" := by decide
example : pyStem ".txt" = ".txt" ∧ pySuffix ".txt" = "" := by decide
example : ensureTxt "notes" = "notes.txt" := by decide
example : ensureTxt "NOTES.TXT" = "NOTES.TXT" := by decide

example :
    load_config (some (.ok (.obj [("notifications", .bool false)]))) =
      [(.str "save_dir", .str "~/Documents/clipboard_saves"),
       (.str "file_template", .str "clip_\x7bdate\x7d_\x7btime\x7d_\x7btext:.15\x7d.txt"),
       (.str "max_filename_length", .num 50),
       (.str "notifications", .bool false),
       (.str "log_level", .str "INFO"),
       (.str "hotkeys", .obj [("quick_save", .str "Ctrl+Alt+S"),
                              ("custom_save", .str "Ctrl+Alt+F")])] := by rfl

example :
    save_clipboard "clip_\x7bdate\x7d_\x7btime\x7d_\x7btext:.15\x7d.txt" 50 frozenClock []
      (.ok "Hello, World! 123") none false none =
    ⟨true, ["clip_2024-01-15_14-30-05_Hello_ World_ 1.txt"],
      some ("clip_2024-01-15_14-30-05_Hello_ World_ 1.txt", "Hello, World! 123")⟩ := by
  decide

example :
    save_clipboard "clip_\x7bdate\x7d_\x7btime\x7d_\x7btext:.15\x7d.txt" 50 frozenClock []
      (.ok "  \t\n ") none false none = ⟨false, [], none⟩ := by decide

/-! ## Properties of sanitization (claim C1) -/

theorem pyStripL_subset (l : List Char) : ∀ c ∈ pyStripL l, c ∈ l := by
  intro c hc
  simp only [pyStripL, List.mem_reverse] at hc
  have h1 : c ∈ (l.dropWhile isPySpace).reverse :=
    (List.dropWhile_sublist isPySpace).subset hc
  rw [List.mem_reverse] at h1
  exact (List.dropWhile_sublist isPySpace).subset h1

theorem pyStripL_length_le (l : List Char) : (pyStripL l).length ≤ l.length := by
  simp only [pyStripL, List.length_reverse]
  calc ((l.dropWhile isPySpace).reverse.dropWhile isPySpace).length
      ≤ (l.dropWhile isPySpace).reverse.length :=
        (List.dropWhile_sublist _).length_le
    _ = (l.dropWhile isPySpace).length := List.length_reverse _
    _ ≤ l.length := (List.dropWhile_sublist _).length_le

theorem sanitize_filename_length (maxLen : Nat) (text : String) :
    (sanitize_filename maxLen text).length ≤ maxLen := by
  simp only [sanitize_filename, String.length_mk]
  calc (pyStripL ((text.toList.map _).take maxLen)).length
      ≤ ((text.toList.map _).take maxLen).length := pyStripL_length_le _
    _ ≤ maxLen := by simp [List.length_take]

theorem sanitize_filename_chars (maxLen : Nat) (text : String) :
    ∀ c ∈ (sanitize_filename maxLen text).toList, allowedChar c := by
  intro c hc
  simp only [sanitize_filename] at hc
  have h1 := pyStripL_subset _ _ hc
  have h2 := List.mem_of_mem_take h1
  rcases List.mem_map.mp h2 with ⟨a, _, rfl⟩
  by_cases h : allowedChar a
  · rw [if_pos h]; exact h
  · rw [if_neg h]; decide

/-- Claim C1, as stated, is false.  Refuting input 1: on the text `"empty"`
(with the default maximum length 50) the substituted value is the literal
`"empty"` even though the truncated-and-stripped sanitized result,
`"empty"`, is not the empty string — the "exactly when" direction fails.
Refuting input 2: with configured maximum length 3, the empty text yields
`"empty"`, whose length 5 exceeds the configured maximum. -/
theorem C1_counterexample :
    sanitizedTextVar 50 "empty" = "empty" ∧
    sanitize_filename 50 "empty" = "empty" ∧
    ("empty" : String) ≠ "" ∧
    sanitizedTextVar 3 "" = "empty" ∧
    ¬ (sanitizedTextVar 3 "").length ≤ 3 := by
  refine ⟨by decide, by decide, by decide, by decide, by decide⟩

/-- Claim C1, amended: for every input text, the `text` value derived from
it has length at most `max(max_filename_length, 5)`, contains only
alphanumerics and the allow-set (space, hyphen, underscore, period), is
never the empty string, and is the sentinel `"empty"` whenever the
truncated-and-stripped sanitized result is empty (it can also be `"empty"`
when the text itself sanitizes to `"empty"`). -/
theorem C1_sanitize_amended (maxLen : Nat) (text : String) :
    (sanitizedTextVar maxLen text).length ≤ max maxLen 5 ∧
    (∀ c ∈ (sanitizedTextVar maxLen text).toList, allowedChar c) ∧
    sanitizedTextVar maxLen text ≠ "" ∧
    (sanitize_filename maxLen text = "" → sanitizedTextVar maxLen text = "empty") := by
  by_cases h : sanitize_filename maxLen text = ""
  · have he : sanitizedTextVar maxLen text = "empty" := by
      simp [sanitizedTextVar, h]
    refine ⟨?_, ?_, ?_, fun _ => he⟩
    · rw [he]
      exact le_trans (by decide : ("empty" : String).length ≤ 5) (le_max_right _ _)
    · rw [he]; decide
    · rw [he]; decide
  · have he : sanitizedTextVar maxLen text = sanitize_filename maxLen text := by
      simp [sanitizedTextVar, h]
    refine ⟨?_, ?_, ?_, fun hh => absurd hh h⟩
    · rw [he]
      exact le_trans (sanitize_filename_length maxLen text) (le_max_left _ _)
    · rw [he]; exact sanitize_filename_chars maxLen text
    · rw [he]; exact h

/-- Witness for `C1_sanitize_amended` at `maxLen = 50`, `text = "a b!"`. -/
theorem C1_sanitize_amended_witness :
    (sanitizedTextVar 50 "a b!").length ≤ max 50 5 ∧
    (∀ c ∈ (sanitizedTextVar 50 "a b!").toList, allowedChar c) ∧
    sanitizedTextVar 50 "a b!" ≠ "" ∧
    (sanitize_filename 50 "a b!" = "" → sanitizedTextVar 50 "a b!" = "empty") :=
  C1_sanitize_amended 50 "a b!"

/-! ## Properties of template substitution (claim C2) -/

theorem lookup_of_mem_keys {n : String} :
    ∀ {vars : List (String × String)}, n ∈ vars.map Prod.fst →
      ∃ v, vars.lookup n = some v := by
  intro vars h
  induction vars with
  | nil => simp at h
  | cons p rest ih =>
    by_cases hk : n = p.1
    · exact ⟨p.2, by simp [List.lookup, hk]⟩
    · have h' : n ∈ rest.map Prod.fst := by
        rcases List.mem_map.mp h with ⟨q, hq, rfl⟩
        rcases List.mem_cons.mp hq with rfl | hq'
        · exact absurd rfl hk
        · exact List.mem_map.mpr ⟨q, hq', rfl⟩
      rcases ih h' with ⟨v, hv⟩
      refine ⟨v, ?_⟩
      have hbeq : (n == p.1) = false := beq_eq_false_iff_ne.mpr hk
      simp [List.lookup, hbeq, hv]

theorem lookup_of_not_mem_keys {n : String} :
    ∀ {vars : List (String × String)}, n ∉ vars.map Prod.fst →
      vars.lookup n = none := by
  intro vars h
  induction vars with
  | nil => rfl
  | cons p rest ih =>
    have hk : n ≠ p.1 := fun he =>
      h (List.mem_map.mpr ⟨p, List.mem_cons_self _ _, he.symm⟩)
    have h' : n ∉ rest.map Prod.fst := fun hm =>
      h (by
        rcases List.mem_map.mp hm with ⟨q, hq, rfl⟩
        exact List.mem_map.mpr ⟨q, List.mem_cons_of_mem _ hq, rfl⟩)
    have hbeq : (n == p.1) = false := beq_eq_false_iff_ne.mpr hk
    simp [List.lookup, hbeq, ih h']

theorem applySpec_ok (spec v : String) (h : specOkB spec = true) :
    ∃ v', applySpec spec v = .ok v' := by
  unfold specOkB at h
  unfold applySpec
  split at h
  · exact ⟨v, rfl⟩
  · rename_i ds heq
    simp only [Bool.and_eq_true, Bool.not_eq_true'] at h
    have hne : ds ≠ [] := by
      intro hnil
      rw [hnil] at h
      exact absurd h.1 (by decide)
    rw [if_pos ⟨hne, h.2⟩]
    exact ⟨_, rfl⟩
  · exact absurd h (by simp)

/-- When every field of a parsed template is a plain named field with an
acceptable spec, the variable dict's keys are exactly the recognized names,
and some field name is unrecognized, substitution fails with a `KeyError`. -/
theorem formatItems_keyError :
    ∀ (items : List FItem) (vars : List (String × String)),
      vars.map Prod.fst = recognizedNames →
      items.all goodFieldB = true →
      (∃ n ∈ fieldNames items, n ∉ recognizedNames) →
      ∃ k, formatItems vars items = .error (.keyError k) := by
  intro items
  induction items with
  | nil =>
    intro vars _ _ hex
    simp [fieldNames] at hex
  | cons it rest ih =>
    intro vars hkeys hgood hex
    rw [List.all_cons, Bool.and_eq_true] at hgood
    match it with
    | .lit c =>
      rcases ih vars hkeys hgood.2 (by simpa [fieldNames] using hex) with ⟨k, hk⟩
      exact ⟨k, by simp [formatItems, hk]⟩
    | .field n spec =>
      have hplain : plainNameB n = true := by
        have := hgood.1
        simp only [goodFieldB, Bool.and_eq_true] at this
        exact this.1
      have hspec : specOkB spec = true := by
        have := hgood.1
        simp only [goodFieldB, Bool.and_eq_true] at this
        exact this.2
      simp only [plainNameB, Bool.and_eq_true, Bool.not_eq_true'] at hplain
      have hne : ¬(n = "" ∨ (n.toList ≠ [] ∧ n.toList.all Char.isDigit = true)) := by
        rintro (rfl | ⟨_, hd⟩)
        · exact absurd hplain.1.1 (by decide)
        · rw [hplain.2] at hd
          exact absurd hd (by decide)
      by_cases hn : n ∈ recognizedNames
      · rcases lookup_of_mem_keys
          (show n ∈ vars.map Prod.fst by rw [hkeys]; exact hn) with ⟨v, hv⟩
        rcases applySpec_ok spec v hspec with ⟨v', hv'⟩
        have hex' : ∃ m ∈ fieldNames rest, m ∉ recognizedNames := by
          rcases hex with ⟨m, hm, hmr⟩
          rcases List.mem_cons.mp (by simpa [fieldNames] using hm) with rfl | hm'
          · exact absurd hn hmr
          · exact ⟨m, hm', hmr⟩
        rcases ih vars hkeys hgood.2 hex' with ⟨k, hk⟩
        refine ⟨k, ?_⟩
        simp only [formatItems]
        rw [if_neg hne]
        simp only [hv, hv', hk]
        rfl
      · refine ⟨n, ?_⟩
        have hv : vars.lookup n = none :=
          lookup_of_not_mem_keys (by rw [hkeys]; exact hn)
        simp only [formatItems]
        rw [if_neg hne]
        simp only [hv]

/-- Claim C2, as stated, is false.  The template `"\x7b\x7d\x7bfoo\x7d"`
references the variable name `foo`, which is outside the recognized set, yet
filename derivation raises an uncaught `IndexError` to the caller (only
`KeyError` is caught): its first replacement field is positional, and the
program passes no positional arguments. -/
theorem C2_counterexample :
    parseFmt "\x7b\x7d\x7bfoo\x7d" =
      .ok [FItem.field "" "", FItem.field "foo" ""] ∧
    "foo" ∈ fieldNames [FItem.field "" "", FItem.field "foo" ""] ∧
    "foo" ∉ recognizedNames ∧
    create_filename "\x7b\x7d\x7bfoo\x7d" 50 frozenClock "x" =
      .error .indexError := by
  refine ⟨by decide, by decide, by decide, by decide⟩

/-- Claim C2, amended: for every template all of whose replacement fields
are named by plain keyword names (no positional or auto-numbered fields)
with acceptable format specs, if some field name is outside the recognized
set then filename derivation does not raise — the `KeyError` is recovered
locally and the result is exactly the fallback `clip_<datetime>.txt`. -/
theorem C2_fallback_amended (template : String) (items : List FItem)
    (maxLen : Nat) (clock : Nat → Instant) (text : String)
    (hp : parseFmt template = .ok items)
    (hgood : items.all goodFieldB = true)
    (hex : ∃ n ∈ fieldNames items, n ∉ recognizedNames) :
    create_filename template maxLen clock text =
      .ok ("clip_" ++ fmtDateTime (clock 2) ++ ".txt") := by
  have hkeys : (templateVars clock maxLen text).map Prod.fst = recognizedNames := rfl
  rcases formatItems_keyError items (templateVars clock maxLen text) hkeys hgood hex
    with ⟨k, hk⟩
  simp [create_filename, pyFormat, hp, hk]

/-- Witness for `C2_fallback_amended`: the template `"\x7bbar\x7d"`. -/
theorem C2_fallback_witness :
    create_filename "\x7bbar\x7d" 50 frozenClock "x" =
      .ok ("clip_" ++ fmtDateTime (frozenClock 2) ++ ".txt") :=
  C2_fallback_amended "\x7bbar\x7d" [FItem.field "bar" ""] 50 frozenClock "x"
    (by decide) (by decide) (by decide)

/-! ## Properties of collision resolution (claim C3) -/

theorem splitExt_append (l : List Char) : (splitExt l).1 ++ (splitExt l).2 = l := by
  unfold splitExt
  split
  · simp
  · dsimp only
    split
    · exact List.take_append_drop _ _
    · simp

theorem pyStem_append_pySuffix (name : String) :
    (pyStem name).data ++ (pySuffix name).data = name.data := by
  simpa [pyStem, pySuffix] using splitExt_append name.toList

theorem pad2_ne_empty (n : Nat) : (pad2 n).data ≠ [] := by
  unfold pad2
  split
  · simp [String.mk]
  · rename_i h
    show (natStr n).data ≠ []
    unfold natStr natDigits natDigitsAux
    rw [if_neg h]
    simp [String.mk]

theorem candidate_ne_self (name : String) (c : Nat) : candidate name c ≠ name := by
  intro h
  have hlen := congrArg (fun s => s.data.length) h
  simp only [candidate, String.data_append, List.length_append] at hlen
  have hsum : (pyStem name).data.length + (pySuffix name).data.length
      = name.data.length := by
    rw [← List.length_append, pyStem_append_pySuffix]
  have hp : 0 < (pad2 c).data.length :=
    List.length_pos.mpr (pad2_ne_empty c)
  have hu : ("_" : String).data.length = 1 := rfl
  omega

/-- Running the collision loop with enough fuel finds the first free
candidate at or after the starting counter. -/
theorem resolveAux_spec (fs : List String) (name : String) :
    ∀ (fuel counter : Nat),
      (∃ k < fuel, candidate name (counter + k) ∉ fs) →
      ∃ j, resolveAux fs name fuel counter = candidate name (counter + j) ∧
        candidate name (counter + j) ∉ fs ∧
        ∀ i < j, candidate name (counter + i) ∈ fs := by
  intro fuel
  induction fuel with
  | zero =>
    intro counter h
    rcases h with ⟨k, hk, _⟩
    omega
  | succ fuel ih =>
    intro counter h
    by_cases hc : candidate name counter ∈ fs
    · have h' : ∃ k < fuel, candidate name (counter + 1 + k) ∉ fs := by
        rcases h with ⟨k, hk, hfree⟩
        match k with
        | 0 => exact absurd (by simpa using hc) hfree
        | k' + 1 =>
          refine ⟨k', by omega, ?_⟩
          have he : counter + 1 + k' = counter + (k' + 1) := by omega
          rw [he]; exact hfree
      rcases ih (counter + 1) h' with ⟨j, heq, hfree, hall⟩
      refine ⟨j + 1, ?_, ?_, ?_⟩
      · rw [resolveAux, if_pos hc, heq]
        congr 1
        omega
      · have he : counter + (j + 1) = counter + 1 + j := by omega
        rw [he]; exact hfree
      · intro i hi
        match i with
        | 0 => simpa using hc
        | i' + 1 =>
          have he : counter + (i' + 1) = counter + 1 + i' := by omega
          rw [he]
          exact hall i' (by omega)
    · refine ⟨0, ?_, by simpa using hc, by omega⟩
      rw [resolveAux, if_neg hc]
      congr 1

/-- Claim C3: the collision resolver returns a candidate path unchanged when
no file of that name exists; otherwise it returns the first name
`<stem>_<counter:02d><suffix>` (counter starting at 1) that does not exist.
The returned name never refers to an existing file, and saving again after a
first save took the name yields that name with `_01` inserted before the
extension. -/
theorem C3_resolve (fs : List String) (name : String) :
    (name ∉ fs → resolveName fs name = name) ∧
    (name ∈ fs → ∃ c, 1 ≤ c ∧ resolveName fs name = candidate name c ∧
      candidate name c ∉ fs ∧ ∀ k, 1 ≤ k → k < c → candidate name k ∈ fs) ∧
    resolveName fs name ∉ fs ∧
    (name ∉ fs → candidate name 1 ∉ fs →
      resolveName (fs ++ [name]) name = pyStem name ++ "_01" ++ pySuffix name) := by
  have main : name ∈ fs → ∃ c, 1 ≤ c ∧ resolveName fs name = candidate name c ∧
      candidate name c ∉ fs ∧ ∀ k, 1 ≤ k → k < c → candidate name k ∈ fs := by
    intro hmem
    rcases resolveAux_spec fs name (fs.length + 1) 1 (exists_free fs name 1)
      with ⟨j, heq, hfree, hall⟩
    refine ⟨1 + j, by omega, ?_, hfree, ?_⟩
    · rw [resolveName, if_pos hmem, heq]
    · intro k hk1 hkj
      have he : k = 1 + (k - 1) := by omega
      rw [he]
      exact hall (k - 1) (by omega)
  refine ⟨fun hnot => by rw [resolveName, if_neg hnot], main, ?_, ?_⟩
  · by_cases hmem : name ∈ fs
    · rcases main hmem with ⟨c, _, heq, hfree, _⟩
      rw [heq]; exact hfree
    · rw [resolveName, if_neg hmem]; exact hmem
  · intro hnot hfree1
    have hmem : name ∈ fs ++ [name] := by simp
    have hc1 : candidate name 1 ∉ fs ++ [name] := by
      intro hm
      rcases List.mem_append.mp hm with hm | hm
      · exact hfree1 hm
      · exact candidate_ne_self name 1 (by simpa using hm)
    have hlen : (fs ++ [name]).length + 1 = fs.length + 1 + 1 := by simp
    have hp : ("_" : String) ++ pad2 1 = "_01" := by decide
    have hstep : candidate name 1 = pyStem name ++ "_01" ++ pySuffix name := by
      unfold candidate
      rw [String.append_assoc (pyStem name) "_" (pad2 1), hp]
    rw [resolveName, if_pos hmem, hlen, resolveAux, if_neg hc1, hstep]

/-- Witness for `C3_resolve` at `fs = ["a.txt"]`, `name = "a.txt"`. -/
theorem C3_resolve_witness :
    (("a.txt" : String) ∉ (["a.txt"] : List String) →
      resolveName ["a.txt"] "a.txt" = "a.txt") ∧
    (("a.txt" : String) ∈ (["a.txt"] : List String) →
      ∃ c, 1 ≤ c ∧ resolveName ["a.txt"] "a.txt" = candidate "a.txt" c ∧
        candidate "a.txt" c ∉ (["a.txt"] : List String) ∧
        ∀ k, 1 ≤ k → k < c → candidate "a.txt" k ∈ (["a.txt"] : List String)) ∧
    resolveName ["a.txt"] "a.txt" ∉ (["a.txt"] : List String) ∧
    (("a.txt" : String) ∉ (["a.txt"] : List String) →
      candidate "a.txt" 1 ∉ (["a.txt"] : List String) →
      resolveName (["a.txt"] ++ ["a.txt"]) "a.txt" =
        pyStem "a.txt" ++ "_01" ++ pySuffix "a.txt") :=
  C3_resolve ["a.txt"] "a.txt"

/-! ## Determinism of filename derivation (claim C4) -/

/-- Claim C4, as stated, is false: `create_filename` calls `datetime.now()`
four separate times, one per time-based template variable, not once.  Two
runs of the template `clip_<date>_<time>.txt` with the same text whose first
`datetime.now()` call returns the same instant `t₀` produce different
filenames when the clock ticks from `t₀` to `t₁` between the first and
second call: the `time` variable comes from the second call. -/
theorem C4_counterexample :
    tickingClock 0 = frozenClock 0 ∧
    create_filename "clip_\x7bdate\x7d_\x7btime\x7d.txt" 50 frozenClock "x" =
      .ok "clip_2024-01-15_14-30-05.txt" ∧
    create_filename "clip_\x7bdate\x7d_\x7btime\x7d.txt" 50 tickingClock "x" =
      .ok "clip_2024-01-15_14-30-06.txt" ∧
    create_filename "clip_\x7bdate\x7d_\x7btime\x7d.txt" 50 frozenClock "x" ≠
      create_filename "clip_\x7bdate\x7d_\x7btime\x7d.txt" 50 tickingClock "x" := by
  refine ⟨by decide, by decide, by decide, by decide⟩

/-- Claim C4, amended: filename derivation is deterministic given the text
and the sequence of the four `datetime.now()` results — each time-based
variable is computed from its own clock read (`date` from the first, `time`
from the second, `datetime` from the third, `timestamp` from the fourth),
and two runs whose four reads agree produce identical filenames. -/
theorem C4_derive_amended (template : String) (maxLen : Nat)
    (c₁ c₂ : Nat → Instant) (text : String)
    (h : ∀ i < 4, c₁ i = c₂ i) :
    create_filename template maxLen c₁ text =
      create_filename template maxLen c₂ text := by
  simp only [create_filename, templateVars,
    h 0 (by omega), h 1 (by omega), h 2 (by omega), h 3 (by omega)]

/-- Witness for `C4_derive_amended`: two clocks that agree on the first four
reads (and differ later) derive the same filename. -/
theorem C4_derive_witness :
    create_filename "clip_\x7bdate\x7d_\x7btime\x7d.txt" 50 frozenClock "x" =
      create_filename "clip_\x7bdate\x7d_\x7btime\x7d.txt" 50
        (fun n => if n < 4 then t₀ else t₁) "x" :=
  C4_derive_amended "clip_\x7bdate\x7d_\x7btime\x7d.txt" 50 frozenClock
    (fun n => if n < 4 then t₀ else t₁) "x"
    (by intro i hi; interval_cases i <;> rfl)

/-! ## Properties of the configuration overlay (claims C5 and C6) -/

theorem getKey_setKey_self (k : JKey) (v : JVal) :
    ∀ d : PyDict, getKey (setKey d k v) k = some v := by
  intro d
  induction d with
  | nil => simp [setKey, getKey, List.find?]
  | cons p rest ih =>
    cases hp : (p.1 == k) with
    | true => simp [setKey, hp, getKey, List.find?]
    | false =>
      simp only [setKey, hp, Bool.false_eq_true, if_false]
      simp only [getKey, List.find?, hp] at ih ⊢
      exact ih

theorem getKey_setKey_ne (k : JKey) (v : JVal) {k' : JKey} (hne : k' ≠ k) :
    ∀ d : PyDict, getKey (setKey d k v) k' = getKey d k' := by
  intro d
  have hbeq : (k == k') = false := beq_eq_false_iff_ne.mpr (Ne.symm hne)
  induction d with
  | nil => simp [setKey, getKey, List.find?, hbeq]
  | cons p rest ih =>
    cases hp : (p.1 == k) with
    | true =>
      have hpk : p.1 = k := by simpa using hp
      have hpk' : (p.1 == k') = false := by
        rw [hpk]; exact hbeq
      simp [setKey, hp, getKey, List.find?, hbeq, hpk']
    | false =>
      simp only [setKey, hp, Bool.false_eq_true, if_false]
      simp only [getKey, List.find?] at ih ⊢
      cases hp' : (p.1 == k') with
      | true => simp [hp']
      | false => simpa [hp'] using ih

theorem getKey_setKey_isSome (k : JKey) (v : JVal) (k' : JKey) (d : PyDict)
    (h : (getKey d k').isSome) : (getKey (setKey d k v) k').isSome := by
  by_cases he : k' = k
  · rw [he, getKey_setKey_self]
    rfl
  · rw [getKey_setKey_ne k v he]
    exact h

theorem getKey_updateObj_isSome (k : JKey) :
    ∀ (kvs : List (String × JVal)) (d : PyDict),
      (getKey d k).isSome → (getKey (updateObj d kvs) k).isSome := by
  intro kvs
  induction kvs with
  | nil => intro d h; exact h
  | cons kv rest ih =>
    intro d h
    exact ih _ (getKey_setKey_isSome _ _ _ _ h)

theorem getKey_updateObj_frame (k : JKey) :
    ∀ (kvs : List (String × JVal)) (d : PyDict),
      (∀ kv ∈ kvs, JKey.str kv.1 ≠ k) →
      getKey (updateObj d kvs) k = getKey d k := by
  intro kvs
  induction kvs with
  | nil => intro d _; rfl
  | cons kv rest ih =>
    intro d hne
    have h1 : getKey (setKey d (.str kv.1) kv.2) k = getKey d k :=
      getKey_setKey_ne _ _ (fun he => hne kv (List.mem_cons_self _ _) he.symm) d
    calc getKey (updateObj (setKey d (.str kv.1) kv.2) rest) k
        = getKey (setKey d (.str kv.1) kv.2) k :=
          ih _ (fun q hq => hne q (List.mem_cons_of_mem _ hq))
      _ = getKey d k := h1

theorem getKey_updateObj_mem :
    ∀ (kvs : List (String × JVal)) (d : PyDict) (k : String) (v : JVal),
      (k, v) ∈ kvs → (getKey (updateObj d kvs) (.str k)).isSome := by
  intro kvs
  induction kvs with
  | nil => intro d k v h; simp at h
  | cons kv rest ih =>
    intro d k v h
    rcases List.mem_cons.mp h with rfl | h'
    · exact getKey_updateObj_isSome _ rest _
        (by rw [getKey_setKey_self]; rfl)
    · exact ih _ _ _ h'

theorem updElem_isSome (k : JKey) (x : JVal) (d d' : PyDict)
    (hok : updElem d x = .ok d') (h : (getKey d k).isSome) :
    (getKey d' k).isSome := by
  unfold updElem at hok
  split at hok
  · rename_i kk vv
    split at hok
    · rcases Except.ok.inj hok with rfl
      exact getKey_setKey_isSome _ _ _ _ h
    · exact absurd hok (by simp)
  · exact absurd hok (by simp)
  · split at hok
    · rcases Except.ok.inj hok with rfl
      exact getKey_setKey_isSome _ _ _ _ h
    · exact absurd hok (by simp)
  · rcases Except.ok.inj hok with rfl
    exact getKey_setKey_isSome _ _ _ _ h
  · exact absurd hok (by simp)
  · exact absurd hok (by simp)

theorem getKey_updSeq_isSome (k : JKey) :
    ∀ (items : List JVal) (d : PyDict),
      (getKey d k).isSome → (getKey (updSeq d items) k).isSome := by
  intro items
  induction items with
  | nil => intro d h; exact h
  | cons x rest ih =>
    intro d h
    unfold updSeq
    cases hx : updElem d x with
    | ok d' => exact ih d' (updElem_isSome k x d d' hx h)
    | error e => exact h

/-- Claim C5: overlaying the defaults with a file containing only
`notifications = false` yields the defaults with exactly that one field
changed; after any object overlay every default key is still present,
unknown keys from the file are preserved in the mapping, and an overlay
containing only unknown keys leaves every default entry unchanged (the
unknown keys are ignored by the logic, which reads only the default keys). -/
theorem C5_config_overlay :
    load_config (some (.ok (.obj [("notifications", .bool false)]))) =
      [(.str "save_dir", .str "~/Documents/clipboard_saves"),
       (.str "file_template", .str "clip_\x7bdate\x7d_\x7btime\x7d_\x7btext:.15\x7d.txt"),
       (.str "max_filename_length", .num 50),
       (.str "notifications", .bool false),
       (.str "log_level", .str "INFO"),
       (.str "hotkeys", .obj [("quick_save", .str "Ctrl+Alt+S"),
                              ("custom_save", .str "Ctrl+Alt+F")])] ∧
    (∀ (kvs : List (String × JVal)) (k : JKey), (getKey defaultConfig k).isSome →
      (getKey (load_config (some (.ok (.obj kvs)))) k).isSome) ∧
    (∀ (kvs : List (String × JVal)) (k : String) (v : JVal), (k, v) ∈ kvs →
      (getKey (load_config (some (.ok (.obj kvs)))) (.str k)).isSome) ∧
    (∀ kvs : List (String × JVal),
      (∀ kv ∈ kvs, getKey defaultConfig (.str kv.1) = none) →
      ∀ k : JKey, (getKey defaultConfig k).isSome →
        getKey (load_config (some (.ok (.obj kvs)))) k = getKey defaultConfig k) := by
  refine ⟨rfl, ?_, ?_, ?_⟩
  · intro kvs k h
    exact getKey_updateObj_isSome k kvs defaultConfig h
  · intro kvs k v h
    exact getKey_updateObj_mem kvs defaultConfig k v h
  · intro kvs hunk k hk
    refine getKey_updateObj_frame k kvs defaultConfig (fun kv hkv he => ?_)
    rw [← he] at hk
    rw [hunk kv hkv] at hk
    exact Bool.noConfusion hk

/-- Witness for `C5_config_overlay` (the quantified parts, at the overlay
`\x7b"save_dir": "/tmp/x", "extra": null\x7d`). -/
theorem C5_config_overlay_witness :
    (getKey (load_config (some (.ok (.obj
      [("save_dir", .str "/tmp/x"), ("extra", .null)]))))
      (.str "notifications")).isSome ∧
    (getKey (load_config (some (.ok (.obj
      [("save_dir", .str "/tmp/x"), ("extra", .null)]))))
      (.str "extra")).isSome ∧
    getKey (load_config (some (.ok (.obj [("extra", .null)]))))
      (.str "save_dir") = getKey defaultConfig (.str "save_dir") :=
  ⟨(C5_config_overlay.2.1) [("save_dir", .str "/tmp/x"), ("extra", .null)]
      (.str "notifications") (by rfl),
   (C5_config_overlay.2.2.1) [("save_dir", .str "/tmp/x"), ("extra", .null)]
      "extra" .null (by simp),
   (C5_config_overlay.2.2.2) [("extra", .null)]
      (by intro kv hkv; simp at hkv; subst hkv; rfl)
      (.str "save_dir") (by rfl)⟩

/-- The JSON value `[["notifications", false], 5]`: well-formed JSON that is
not an object, whose overlay applies its first pair and then raises. -/
def badContent : JVal :=
  .arr [.arr [.str "notifications", .bool false], .num 5]

/-- Claim C6, as stated, is false: when the config file decodes to
`[["notifications", false], 5]`, `dict.update` applies the first key-value
pair and then raises `TypeError` on the element `5`; the `except` clause
prints the warning, but the returned configuration is the (mutated) dict
with `notifications = false` — not the pure hard-coded defaults. -/
theorem C6_counterexample :
    configWarning (some (.ok badContent)) = true ∧
    load_config (some (.ok badContent)) =
      [(.str "save_dir", .str "~/Documents/clipboard_saves"),
       (.str "file_template", .str "clip_\x7bdate\x7d_\x7btime\x7d_\x7btext:.15\x7d.txt"),
       (.str "max_filename_length", .num 50),
       (.str "notifications", .bool false),
       (.str "log_level", .str "INFO"),
       (.str "hotkeys", .obj [("quick_save", .str "Ctrl+Alt+S"),
                              ("custom_save", .str "Ctrl+Alt+F")])] ∧
    load_config (some (.ok badContent)) ≠ defaultConfig := by
  refine ⟨rfl, rfl, ?_⟩
  intro h
  have h1 : getKey (load_config (some (.ok badContent)))
      (.str "notifications") = some (.bool false) := rfl
  rw [h] at h1
  have h2 : getKey defaultConfig (.str "notifications") = some (.bool true) := rfl
  rw [h2] at h1
  exact absurd h1 (by simp)

theorem updElem_error_of_fails (d : PyDict) (x : JVal)
    (h : updElemFails x = true) : ∃ e, updElem d x = .error e := by
  match x with
  | .null => exact ⟨.typeError, rfl⟩
  | .bool _ => exact ⟨.typeError, rfl⟩
  | .num _ => exact ⟨.typeError, rfl⟩
  | .str s =>
    simp only [updElemFails, decide_eq_true_eq] at h
    refine ⟨.valueError, ?_⟩
    simp only [updElem]
    rcases hs : s.toList with _ | ⟨a, _ | ⟨b, _ | ⟨c, t3⟩⟩⟩
    · rfl
    · rfl
    · rw [hs] at h
      simp at h
    · rfl
  | .arr l =>
    cases l with
    | nil => exact ⟨.valueError, rfl⟩
    | cons k t =>
      cases t with
      | nil => exact ⟨.valueError, rfl⟩
      | cons v t2 =>
        cases t2 with
        | cons w t3 => exact ⟨.valueError, rfl⟩
        | nil =>
          simp only [updElemFails] at h
          refine ⟨.typeError, ?_⟩
          simp only [updElem]
          cases hk : toKey k with
          | none => rfl
          | some kk =>
            rw [hk] at h
            simp at h
  | .obj kvs =>
    cases kvs with
    | nil => exact ⟨.valueError, rfl⟩
    | cons p t =>
      cases t with
      | nil => exact ⟨.valueError, rfl⟩
      | cons q t2 =>
        cases t2 with
        | nil =>
          simp only [updElemFails, decide_eq_true_eq] at h
          simp at h
        | cons r t3 => exact ⟨.valueError, rfl⟩

/-- Applying a sequence whose elements are well-formed key-value pairs up to
a first bad element overlays exactly those pairs (in object-overlay form)
and then stops, keeping them applied. -/
theorem updSeq_pairs_of_fails (bad : JVal) (rest : List JVal)
    (hbad : updElemFails bad = true) :
    ∀ (pairs : List (String × JVal)) (d : PyDict),
      updSeq d (pairs.map (fun kv => JVal.arr [.str kv.1, kv.2]) ++
        bad :: rest) = updateObj d pairs := by
  intro pairs
  induction pairs with
  | nil =>
    intro d
    rcases updElem_error_of_fails d bad hbad with ⟨e, he⟩
    simp only [List.map_nil, List.nil_append]
    unfold updSeq
    rw [he]
    rfl
  | cons kv ps ih =>
    intro d
    simp only [List.map_cons, List.cons_append]
    unfold updSeq
    show updSeq (setKey d (.str kv.1) kv.2)
        (ps.map (fun kv => JVal.arr [.str kv.1, kv.2]) ++ bad :: rest) =
      updateObj (setKey d (.str kv.1) kv.2) ps
    exact ih (setKey d (.str kv.1) kv.2)

/-- Claim C6, amended: config loading never raises upward (the model is a
total function).  When the config file is absent, no warning is emitted and
the loader returns exactly the pure hard-coded defaults.  If the file
exists but reading or JSON-decoding fails, the warning is emitted and the
loader returns exactly the pure hard-coded defaults.  If the file decodes
to a JSON sequence of key-value pairs followed by a malformed element, the
warning is emitted but the loader returns the defaults overlaid with
exactly the pairs preceding the failure — not the pure defaults.  In every
case, every default key remains present in the returned mapping. -/
theorem C6_load_amended :
    (∀ e, load_config (some (.error e)) = defaultConfig ∧
      configWarning (some (.error e)) = true) ∧
    (load_config none = defaultConfig ∧ configWarning none = false) ∧
    (∀ (pairs : List (String × JVal)) (bad : JVal) (rest : List JVal),
      updElemFails bad = true →
      load_config (some (.ok (.arr
        (pairs.map (fun kv => JVal.arr [.str kv.1, kv.2]) ++ bad :: rest)))) =
        updateObj defaultConfig pairs ∧
      configWarning (some (.ok (.arr
        (pairs.map (fun kv => JVal.arr [.str kv.1, kv.2]) ++ bad :: rest)))) =
        true) ∧
    (∀ (file : ConfigFile) (k : JKey), (getKey defaultConfig k).isSome →
      (getKey (load_config file) k).isSome) := by
  refine ⟨fun e => ⟨rfl, rfl⟩, ⟨rfl, rfl⟩, ?_, ?_⟩
  · intro pairs bad rest hbad
    constructor
    · show updSeq defaultConfig
        (pairs.map (fun kv => JVal.arr [.str kv.1, kv.2]) ++ bad :: rest) = _
      exact updSeq_pairs_of_fails bad rest hbad pairs defaultConfig
    · show (pairs.map (fun kv => JVal.arr [.str kv.1, kv.2]) ++
        bad :: rest).any updElemFails = true
      exact List.any_eq_true.mpr ⟨bad, by simp, hbad⟩
  · intro file k h
    match file with
    | none => exact h
    | some (.error _) => exact h
    | some (.ok v) =>
      match v with
      | .null => exact h
      | .bool _ => exact h
      | .num _ => exact h
      | .str _ => exact h
      | .arr items => exact getKey_updSeq_isSome k items defaultConfig h
      | .obj kvs => exact getKey_updateObj_isSome k kvs defaultConfig h

/-- Witness for `C6_load_amended`: a decode error warns and yields the pure
defaults; the sequence `[["notifications", false], 5]` warns and yields the
defaults overlaid with exactly `notifications = false`; the key
`notifications` is still present after loading `badContent`. -/
theorem C6_load_amended_witness :
    (load_config (some (.error ())) = defaultConfig ∧
      configWarning (some (.error ())) = true) ∧
    (load_config (some (.ok (.arr
        (([("notifications", JVal.bool false)] : List (String × JVal)).map
          (fun kv => JVal.arr [.str kv.1, kv.2]) ++ JVal.num 5 :: [])))) =
        updateObj defaultConfig [("notifications", JVal.bool false)] ∧
      configWarning (some (.ok (.arr
        (([("notifications", JVal.bool false)] : List (String × JVal)).map
          (fun kv => JVal.arr [.str kv.1, kv.2]) ++ JVal.num 5 :: [])))) =
        true) ∧
    (getKey (load_config (some (.ok badContent))) (.str "notifications")).isSome :=
  ⟨C6_load_amended.1 (),
   C6_load_amended.2.2.1 [("notifications", JVal.bool false)] (JVal.num 5) [] rfl,
   C6_load_amended.2.2.2 (some (.ok badContent)) (.str "notifications") (by rfl)⟩

/-! ## The empty-clipboard guard (claim C7) -/

/-- Claim C7: when the clipboard text strips to nothing, `save_clipboard`
reports failure and the save directory is unchanged — no file is created. -/
theorem C7_empty_clipboard (template : String) (maxLen : Nat)
    (clock : Nat → Instant) (fs : List String) (text : String)
    (customFilename : Option String) (useDialog : Bool)
    (dialog : Option (Nat × String)) (h : pyStrip text = "") :
    save_clipboard template maxLen clock fs (.ok text) customFilename
      useDialog dialog = ⟨false, fs, none⟩ := by
  simp [save_clipboard, h]

/-- Witness for `C7_empty_clipboard` on a whitespace-only clipboard. -/
theorem C7_empty_clipboard_witness :
    save_clipboard "clip_\x7bdate\x7d.txt" 50 frozenClock ["a.txt"]
      (.ok " \t\n ") none false none = ⟨false, ["a.txt"], none⟩ :=
  C7_empty_clipboard "clip_\x7bdate\x7d.txt" 50 frozenClock ["a.txt"]
    " \t\n " none false none (by decide)

/-! ## Exit codes (claim C8) -/

/-- Claim C8: the process exits 0 on `--init-config`, `--list`, `--info`
and on a successful save; it exits 1 on a save failure (including dialog
cancellation), on a `KeyboardInterrupt`, and on any unexpected error caught
at the entry point. -/
theorem C8_exit_codes (template : String) (maxLen : Nat) (clock : Nat → Instant)
    (fs : List String) (clipboard : Except Unit String)
    (dialog : Option (Nat × String)) (interrupted ctorFail : Bool) :
    (∀ l i c f, mainExit ⟨l, i, true, c, f⟩ interrupted ctorFail template maxLen
      clock fs clipboard dialog = 0) ∧
    (∀ l i c f, mainExit ⟨l, i, false, c, f⟩ true ctorFail template maxLen
      clock fs clipboard dialog = 1) ∧
    (∀ l i c f, mainExit ⟨l, i, false, c, f⟩ false true template maxLen
      clock fs clipboard dialog = 1) ∧
    (∀ n i c f, mainExit ⟨some n, i, false, c, f⟩ false false template maxLen
      clock fs clipboard dialog = 0) ∧
    (∀ c f, mainExit ⟨none, true, false, c, f⟩ false false template maxLen
      clock fs clipboard dialog = 0) ∧
    (∀ b : Bool, (save_clipboard template maxLen clock fs clipboard none false
        dialog).ok = b →
      mainExit ⟨none, false, false, false, none⟩ false false template maxLen
        clock fs clipboard dialog = if b then 0 else 1) ∧
    (∀ (g : String) (b : Bool), g ≠ "" →
      (save_clipboard template maxLen clock fs clipboard (some g) false
        dialog).ok = b →
      mainExit ⟨none, false, false, false, some g⟩ false false template maxLen
        clock fs clipboard dialog = if b then 0 else 1) ∧
    (∀ (text s : String), clipboard = .ok text →
      ¬(text = "" ∨ pyStrip text = "") →
      create_filename template maxLen clock text = .ok s →
      show_filename_dialog dialog = none →
      mainExit ⟨none, false, false, true, none⟩ false false template maxLen
        clock fs clipboard dialog = 1) := by
  refine ⟨fun l i c f => rfl, fun l i c f => rfl, fun l i c f => rfl,
    fun n i c f => rfl, fun c f => rfl, ?_, ?_, ?_⟩
  · intro b hb
    show (if (save_clipboard template maxLen clock fs clipboard none false
        dialog).ok = true then 0 else 1) = _
    rw [hb]
  · intro g b hg hb
    show (if (if g ≠ "" then
        save_clipboard template maxLen clock fs clipboard (some g) false dialog
      else
        save_clipboard template maxLen clock fs clipboard none false dialog).ok
        = true then 0 else 1) = _
    rw [if_pos hg, hb]
  · intro text s hcb htext hcf hdial
    subst hcb
    have hsave : save_clipboard template maxLen clock fs (.ok text) none true
        dialog = ⟨false, fs, none⟩ := by
      simp [save_clipboard, htext, hcf, hdial]
    show (if (save_clipboard template maxLen clock fs (.ok text) none true
        dialog).ok = true then 0 else 1) = _
    rw [hsave]
    rfl

/-- Witness for `C8_exit_codes` at concrete arguments: a cancelled dialog
(non-zero zenity return code) exits 1, informational commands exit 0. -/
theorem C8_exit_codes_witness :
    mainExit ⟨none, false, true, false, none⟩ false false
      "clip_\x7bdate\x7d.txt" 50 frozenClock [] (.ok "hi") (some (1, "")) = 0 ∧
    mainExit ⟨none, true, false, false, none⟩ false false
      "clip_\x7bdate\x7d.txt" 50 frozenClock [] (.ok "hi") (some (1, "")) = 0 ∧
    mainExit ⟨none, false, false, true, none⟩ false false
      "clip_\x7bdate\x7d.txt" 50 frozenClock [] (.ok "hi") (some (1, "")) = 1 :=
  ⟨(C8_exit_codes "clip_\x7bdate\x7d.txt" 50 frozenClock [] (.ok "hi")
      (some (1, "")) false false).1 none false false none,
   (C8_exit_codes "clip_\x7bdate\x7d.txt" 50 frozenClock [] (.ok "hi")
      (some (1, "")) false false).2.2.2.2.1 false none,
   (C8_exit_codes "clip_\x7bdate\x7d.txt" 50 frozenClock [] (.ok "hi")
      (some (1, "")) false false).2.2.2.2.2.2.2 "hi" "clip_2024-01-15.txt"
      rfl (by decide) (by decide) rfl⟩

/-! ## Custom filenames bypass sanitization (claim C9) -/

/-- Claim C9: a non-empty custom filename is used as-is — no sanitization,
no length limit; the only transformation is appending `.txt` when the name
does not already end in `.txt` case-insensitively.  Such a name can contain
path separators (which sanitization would have replaced), so the joined
path can resolve outside the save directory. -/
theorem C9_custom_filename (template : String) (maxLen : Nat)
    (clock : Nat → Instant) (fs : List String) (text s : String)
    (dialog : Option (Nat × String)) (hs : s ≠ "")
    (htext : ¬(text = "" ∨ pyStrip text = ""))
    (hfree : ensureTxt s ∉ fs) :
    save_clipboard template maxLen clock fs (.ok text) (some s) false dialog =
      ⟨true, fs ++ [ensureTxt s], some (ensureTxt s, text)⟩ ∧
    (∀ r : String, ensureTxt r = r ∨ ensureTxt r = r ++ ".txt") ∧
    ensureTxt "../../home/user/.bashrc" = "../../home/user/.bashrc.txt" ∧
    '/' ∈ (ensureTxt "../../home/user/.bashrc").toList ∧
    ¬ allowedChar '/' ∧
    ensureTxt "REPORT.TXT" = "REPORT.TXT" ∧
    (ensureTxt (String.mk (List.replicate 60 'a'))).length > 50 := by
  refine ⟨?_, ?_, by decide, by decide, by decide, by decide, by decide⟩
  · simp [save_clipboard, htext, hs, resolveName, hfree]
  · intro r
    unfold ensureTxt
    split
    · exact Or.inl rfl
    · exact Or.inr rfl

/-- Witness for `C9_custom_filename`: saving with the custom name
`../escape` writes `../escape.txt`, outside the save directory. -/
theorem C9_custom_filename_witness :
    save_clipboard "clip_\x7bdate\x7d.txt" 50 frozenClock ["a.txt"]
      (.ok "hi") (some "../escape") false none =
      ⟨true, ["a.txt", "../escape.txt"], some ("../escape.txt", "hi")⟩ ∧
    (∀ r : String, ensureTxt r = r ∨ ensureTxt r = r ++ ".txt") ∧
    ensureTxt "../../home/user/.bashrc" = "../../home/user/.bashrc.txt" ∧
    '/' ∈ (ensureTxt "../../home/user/.bashrc").toList ∧
    ¬ allowedChar '/' ∧
    ensureTxt "REPORT.TXT" = "REPORT.TXT" ∧
    (ensureTxt (String.mk (List.replicate 60 'a'))).length > 50 :=
  C9_custom_filename "clip_\x7bdate\x7d.txt" 50 frozenClock ["a.txt"] "hi"
    "../escape" none (by decide) (by decide) (by decide)

/-! ## Blank dialog input aborts the save (claim C10) -/

/-- Claim C10: when the dialog completes (return code 0) but the entered
text strips to nothing, `show_filename_dialog` returns no filename — the
same result as cancellation — so the save reports failure and no file is
created. -/
theorem C10_blank_dialog (template : String) (maxLen : Nat)
    (clock : Nat → Instant) (fs : List String) (text out s : String)
    (hout : pyStrip out = "")
    (htext : ¬(text = "" ∨ pyStrip text = ""))
    (hcf : create_filename template maxLen clock text = .ok s) :
    show_filename_dialog (some (0, out)) = none ∧
    save_clipboard template maxLen clock fs (.ok text) none true
      (some (0, out)) = ⟨false, fs, none⟩ := by
  have hdial : show_filename_dialog (some (0, out)) = none := by
    unfold show_filename_dialog
    simp only [hout]
    rfl
  refine ⟨hdial, ?_⟩
  simp [save_clipboard, htext, hcf, hdial]

/-- Witness for `C10_blank_dialog`: the dialog returns whitespace-only
text. -/
theorem C10_blank_dialog_witness :
    show_filename_dialog (some (0, "   ")) = none ∧
    save_clipboard "clip_\x7bdate\x7d.txt" 50 frozenClock ["a.txt"]
      (.ok "hi") none true (some (0, "   ")) = ⟨false, ["a.txt"], none⟩ :=
  C10_blank_dialog "clip_\x7bdate\x7d.txt" 50 frozenClock ["a.txt"] "hi"
    "   " "clip_2024-01-15.txt" (by decide) (by decide) (by decide)

end ClipboardSaver
